import Mathlib

/-!
Verification development for the EduFunds-Grundschule funding-discovery tool.

The TypeScript core is shallowly embedded:
  - JS strings are Lean `String` / `List Char`; lowercasing is the ASCII mapping
    (it agrees with `String.prototype.toLowerCase` on every character class that
    occurs in the German-format data this code processes).
  - JS numbers are exact rationals (`Rat`) for budget values and integers
    (`Int`) for match scores and millisecond timestamps; all values handled by
    the code are well inside the range where IEEE doubles are exact.
  - A JS `Date` is its millisecond timestamp; a date built by
    `new Date(year, monthIndex, day)` is the local midnight of the (normalized)
    civil date, represented through a civil-day-number computation.  Daylight
    saving time is not modelled, so one calendar day is a fixed 86 400 000 ms.
  - `localStorage` is a two-document store; a document is `none` when the key is
    absent and `some none` when it is present but fails to deserialize.
-/

/-- Numeric value of a list of ASCII digits, most significant first (the
integer read performed by `parseInt` / `parseFloat`). -/
def digitsToNat (ds : List Char) : Nat :=
  ds.foldl (fun n c => 10 * n + (c.toNat - 48)) 0

/-- Value of `parseFloat` on an integer digit run `ip` followed by an optional
fractional digit run `fp`, as an exact rational. -/
def ratFromParts (ip fp : List Char) : Rat :=
  (digitsToNat ip : Rat) + (digitsToNat fp : Rat) / ((10 : Rat) ^ fp.length)

/-- Whether the first list occurs at the very start of the second list. -/
def leadsList : List Char → List Char → Bool
  | [], _ => true
  | _ :: _, [] => false
  | a :: as, b :: bs => a == b && leadsList as bs

/-- JS `String.prototype.includes` on character lists: the needle occurs
contiguously somewhere in the haystack. -/
def hasSub (needle : List Char) : List Char → Bool
  | [] => needle.isEmpty
  | c :: cs => leadsList needle (c :: cs) || hasSub needle cs

/-- The lowercased character sequence of a string (ASCII case mapping, as used
by the `toLowerCase()` calls in the source). -/
def lowerChars (s : String) : List Char :=
  s.data.map Char.toLower

/-- Greedy parse of `(\.\d{3})+` at the head of the list: returns the
concatenated group digits (empty when no group matched) and the rest. -/
def dotGroups : List Char → List Char × List Char
  | '.' :: c1 :: c2 :: c3 :: rest =>
    if c1.isDigit && c2.isDigit && c3.isDigit then
      let (ds, r) := dotGroups rest
      (c1 :: c2 :: c3 :: ds, r)
    else ([], '.' :: c1 :: c2 :: c3 :: rest)
  | cs => ([], cs)

/-- Greedy parse of the optional `(,\d+)?` decimal suffix at the head of the
list: returns the fractional digits (empty when the option does not match). -/
def commaDecimal : List Char → List Char
  | ',' :: c :: rest => if c.isDigit then (c :: rest).takeWhile Char.isDigit else []
  | _ => []

/-- One backtracking alternative of the anchored regex
`\d{1,3}(?:\.\d{3})+(?:,\d+)?`: a lead of exactly `k` digits followed by at
least one dot group and the optional decimal suffix.  Returns the integer
digits (grouping dots stripped) and the fractional digits. -/
def germanLead (k : Nat) (cs : List Char) : Option (List Char × List Char) :=
  let lead := cs.take k
  if lead.length == k && lead.all Char.isDigit then
    let (gds, rest1) := dotGroups (cs.drop k)
    if gds.isEmpty then none
    else some (lead ++ gds, commaDecimal rest1)
  else none

/-- Anchored match of `\d{1,3}(?:\.\d{3})+(?:,\d+)?` with the backtracking
order of the JS engine: the greedy `\d{1,3}` tries a lead of 3 digits, then 2,
then 1. -/
def germanAt (cs : List Char) : Option (List Char × List Char) :=
  match germanLead 3 cs with
  | some r => some r
  | none =>
    match germanLead 2 cs with
    | some r => some r
    | none => germanLead 1 cs

/-- Leftmost unanchored match of the German grouped-number regex, as performed
by `budget.match(/\d{1,3}(?:\.\d{3})+(?:,\d+)?/)`. -/
def findGerman : List Char → Option (List Char × List Char)
  | [] => none
  | c :: cs =>
    match germanAt (c :: cs) with
    | some r => some r
    | none => findGerman cs

/-- Anchored match of `\d+,\d+` (integer digits, fractional digits). -/
def plainDecimalAt (cs : List Char) : Option (List Char × List Char) :=
  let ip := cs.takeWhile Char.isDigit
  if ip.isEmpty then none
  else
    match cs.dropWhile Char.isDigit with
    | ',' :: rest =>
      let fp := rest.takeWhile Char.isDigit
      if fp.isEmpty then none else some (ip, fp)
    | _ => none

/-- Leftmost unanchored match of `\d+,\d+`, as performed by
`budget.match(/\d+,\d+/)`. -/
def findPlainDecimal : List Char → Option (List Char × List Char)
  | [] => none
  | c :: cs =>
    match plainDecimalAt (c :: cs) with
    | some r => some r
    | none => findPlainDecimal cs

/-- Leftmost maximal digit run, as matched by `budget.match(/\d+/)`. -/
def findPlainNumber : List Char → Option (List Char)
  | [] => none
  | c :: cs => if c.isDigit then some ((c :: cs).takeWhile Char.isDigit) else findPlainNumber cs

/-- The numeric-portion extraction of `parseBudget` (src/unnamed/part_000,
lines 18-35): the three regexes are tried in order and the match is normalized
to (integer digits, fractional digits), which is the information kept after
stripping `.` grouping and turning `,` into the decimal point. -/
def extractBudgetParts (budget : String) : Option (List Char × List Char) :=
  match findGerman budget.data with
  | some p => some p
  | none =>
    match findPlainDecimal budget.data with
    | some p => some p
    | none =>
      match findPlainNumber budget.data with
      | some ds => some (ds, [])
      | none => none

/-- parseBudget from src/unnamed/part_000, lines 10-47.  The `isNaN` guard of
the source is unreachable because every match starts with a digit, so
`parseFloat` always succeeds; the result is modelled as an exact rational. -/
def parseBudget (budget : String) : Rat :=
  let lower := lowerChars budget
  let isMillion := hasSub "mio".data lower || hasSub "million".data lower
  let isThousand := hasSub "tsd".data lower || hasSub "tausend".data lower
  match extractBudgetParts budget with
  | none => 0
  | some (ip, fp) =>
    let value := ratFromParts ip fp
    if isMillion then value * 1000000
    else if isThousand then value * 1000
    else value

/-- A lead of exactly `k` digits, returning its numeric value and the rest. -/
def digitRun (k : Nat) (cs : List Char) : Option (Nat × List Char) :=
  let ds := cs.take k
  if ds.length == k && ds.all Char.isDigit then some (digitsToNat ds, cs.drop k) else none

/-- Greedy `\d{1,2}`: two digits when available, otherwise one.  No further
backtracking is needed: when two digits are available, the one-digit
alternative is followed by a digit and can never be followed by the `\.` that
the deadline regex requires next. -/
def twoDigitRun (cs : List Char) : Option (Nat × List Char) :=
  match digitRun 2 cs with
  | some r => some r
  | none => digitRun 1 cs

/-- A literal `\.` of the deadline regex: consume one dot. -/
def expectDot : List Char → Option (List Char)
  | '.' :: rest => some rest
  | _ => none

/-- Anchored match of `(\d{1,2})\.(\d{1,2})\.(\d{4})`, returning
(day, month, year). -/
def dmyAt (cs : List Char) : Option (Nat × Nat × Nat) := do
  let (d, rest1) ← twoDigitRun cs
  let rest2 ← expectDot rest1
  let (m, rest3) ← twoDigitRun rest2
  let rest4 ← expectDot rest3
  let (y, _) ← digitRun 4 rest4
  pure (d, m, y)

/-- Leftmost unanchored match of `(\d{1,2})\.(\d{1,2})\.(\d{4})`, as performed
by `deadline.match(...)` in `parseDeadline`. -/
def findDMY : List Char → Option (Nat × Nat × Nat)
  | [] => none
  | c :: cs =>
    match dmyAt (c :: cs) with
    | some r => some r
    | none => findDMY cs

/-- Day number of the civil date `y-m-d` relative to 1970-01-01, for a month in
1..12; the day component may lie outside its normal range and contributes
linearly (Howard Hinnant days-from-civil algorithm). -/
def daysFromCivil (y m d : Int) : Int :=
  let yy := if m ≤ 2 then y - 1 else y
  let era := yy.fdiv 400
  let yoe := yy - era * 400
  let mp := (m + 9).emod 12
  let doy := (153 * mp + 2).fdiv 5 + (d - 1)
  let doe := yoe * 365 + yoe.fdiv 4 - yoe.fdiv 100 + doy
  era * 146097 + doe - 719468

/-- ECMA-262 MakeDay: civil day number from a year, a month index that may
lie outside 0..11 (normalized into the year), and a day that may lie outside
its normal range (contributing linearly). -/
def makeDay (y m d : Int) : Int :=
  daysFromCivil (y + m.fdiv 12) (m.emod 12 + 1) d

/-- Civil day number produced by `new Date(year, monthIndex, day)` (local
midnight): ECMA-262 first applies MakeFullYear to the year argument — an
integer year in 0..99 denotes 1900 + year — and then MakeDay normalizes an
out-of-range month index or day. -/
def jsMakeDay (y m d : Int) : Int :=
  makeDay (if 0 ≤ y ∧ y ≤ 99 then 1900 + y else y) m d

/-- Milliseconds per calendar day; with no DST in the model, every local
midnight sits on a multiple of this. -/
def msPerDay : Int := 86400000

/-- parseDeadline from src/unnamed/part_000, lines 56-63.  The resulting JS
`Date` (a local midnight) is represented by its civil day number; `none` is
the shared null result for the ongoing marker and for unparsable input. -/
def parseDeadline (deadline : String) : Option Int :=
  if hasSub "laufend".data (lowerChars deadline) then none
  else
    match findDMY deadline.data with
    | some (d, m, y) => some (jsMakeDay (y : Int) ((m : Int) - 1) (d : Int))
    | none => none

/-- Ceiling division of integers for a positive divisor, the value computed by
`Math.ceil(a / b)` (the quotients in this development are exact in doubles). -/
def ceilDivInt (a b : Int) : Int := -(Int.ediv (-a) b)

/-- getDaysUntilDeadline from src/unnamed/part_000, lines 161-167.  The
reference instant is a millisecond timestamp; the deadline date contributes its
local-midnight timestamp `dayNumber * msPerDay`. -/
def getDaysUntilDeadline (deadline : String) (fromTime : Int) : Option Int :=
  match parseDeadline deadline with
  | none => none
  | some dn => some (ceilDivInt (dn * msPerDay - fromTime) msPerDay)

/-- FundingProgram from src/types.ts (the fields consumed by the embedded
logic; display-only optional fields are omitted). -/
structure FundingProgram where
  id : String
  title : String
  provider : String
  budget : String
  deadline : String
  focus : String
  description : String
  requirements : String
  region : List String
deriving DecidableEq

/-- isProgramAvailableInState from src/unnamed/part_000, lines 124-131. -/
def isProgramAvailableInState (program : FundingProgram) (stateCode : String) : Bool :=
  if program.region.contains "DE" then true
  else program.region.contains stateCode

/-- MatchResult from src/types.ts (tags are display-only and omitted); the
external matcher produces integer scores in 0..100. -/
structure MatchResult where
  programId : String
  score : Int
  reasoning : String
deriving DecidableEq

/-- The reminder kind union type of ScheduledReminder in src/types.ts. -/
inductive ReminderType
  | seven_days
  | one_day
deriving DecidableEq

/-- The nested reminders object of NotificationPreferences in src/types.ts. -/
structure ReminderToggles where
  sevenDays : Bool
  oneDay : Bool
deriving DecidableEq

/-- NotificationPreferences from src/types.ts. -/
structure NotificationPreferences where
  email : String
  enabled : Bool
  reminders : ReminderToggles
  subscribedPrograms : List String
deriving DecidableEq

/-- ScheduledReminder from src/types.ts; the ISO `scheduledDate` string is
represented by the millisecond timestamp it denotes (the `toISOString` /
`new Date(...)` round trip is the identity on valid dates, and the scheduler
only ever stores valid dates). -/
structure ScheduledReminder where
  programId : String
  programTitle : String
  deadline : String
  reminderType : ReminderType
  scheduledDate : Int
  sent : Bool
deriving DecidableEq

/-- The two localStorage documents used by src/unnamed/part_006.  `none` is an
absent key; `some none` is a present document that fails to deserialize. -/
structure NotifStore where
  prefsDoc : Option (Option NotificationPreferences)
  remindersDoc : Option (Option (List ScheduledReminder))
deriving DecidableEq

/-- The fallback preferences value of getPreferences (src/unnamed/part_006,
lines 19-27). -/
def defaultPreferences : NotificationPreferences :=
  { email := ""
    enabled := false
    reminders := { sevenDays := true, oneDay := true }
    subscribedPrograms := [] }

/-- getPreferences from src/unnamed/part_006, lines 10-28. -/
def getPreferences (s : NotifStore) : NotificationPreferences :=
  match s.prefsDoc with
  | some (some p) => p
  | _ => defaultPreferences

/-- getScheduledReminders from src/unnamed/part_006, lines 40-50. -/
def getScheduledReminders (s : NotifStore) : List ScheduledReminder :=
  match s.remindersDoc with
  | some (some l) => l
  | _ => []

/-- savePreferences from src/unnamed/part_006, lines 33-35. -/
def savePreferences (p : NotificationPreferences) (s : NotifStore) : NotifStore :=
  { s with prefsDoc := some (some p) }

/-- saveScheduledReminders from src/unnamed/part_006, lines 55-57. -/
def saveScheduledReminders (l : List ScheduledReminder) (s : NotifStore) : NotifStore :=
  { s with remindersDoc := some (some l) }

/-- Model of the implementation-defined host `new Date(string)` parser used by
calculateReminderDates, on the deadline-string shapes this repository holds
(observed V8 behavior): a string consisting exactly of
digits-dot-digits-dot-fourdigits is read as US month.day.year and is valid
only when the month field is 1..12 (the day normalizes like MakeDay, and the
four-digit year field is taken literally: the string parser, unlike the
multi-argument constructor, applies no MakeFullYear mapping); every
other shape, such as prose or the word Laufend, yields an invalid date
(`none`).  This is NOT `parseDeadline`: the German day.month.year strings this
repository stores are unreadable here whenever the day exceeds 12, and are
read with day and month transposed otherwise. -/
def jsDateParse (s : String) : Option Int :=
  let a := s.data.takeWhile Char.isDigit
  match s.data.dropWhile Char.isDigit with
  | '.' :: r1 =>
    let b := r1.takeWhile Char.isDigit
    match r1.dropWhile Char.isDigit with
    | '.' :: r2 =>
      let c := r2.takeWhile Char.isDigit
      if (1 ≤ a.length ∧ a.length ≤ 2) ∧ (1 ≤ b.length ∧ b.length ≤ 2) ∧
          c.length = 4 ∧ (r2.dropWhile Char.isDigit).isEmpty ∧
          1 ≤ digitsToNat a ∧ digitsToNat a ≤ 12 then
        some (makeDay (digitsToNat c : Int) ((digitsToNat a : Int) - 1) (digitsToNat b : Int) * msPerDay)
      else none
    | _ => none
  | _ => none

/-- calculateReminderDates from src/unnamed/part_006, lines 62-69.  `setDate`
shifting a local midnight by whole calendar days is a fixed millisecond offset
in the DST-free model; an invalid deadline date stays invalid (`none`). -/
def calculateReminderDates (deadline : String) : Option Int × Option Int :=
  match jsDateParse deadline with
  | some t => (some (t - 7 * msPerDay), some (t - msPerDay))
  | none => (none, none)

/-- The reminder record pushed by scheduleReminders for one reminder kind. -/
def mkReminder (program : FundingProgram) (rt : ReminderType) (t : Int) : ScheduledReminder :=
  { programId := program.id
    programTitle := program.title
    deadline := program.deadline
    reminderType := rt
    scheduledDate := t
    sent := false }

/-- One reminder-kind block of scheduleReminders (src/unnamed/part_006 repeats
this block verbatim for seven_days at lines 81-95 and one_day at lines
97-111): when the kind toggle is on, the computed instant is a valid date
strictly after now, and no record for (program id, kind) exists yet, push one
new unsent record.  The JS comparison `invalidDate > now` is false, so an
unparseable deadline schedules nothing (and the unreachable `toISOString` on
an invalid date never throws). -/
def kindPart (program : FundingProgram) (now : Int) (existingReminders : List ScheduledReminder)
    (toggle : Bool) (o : Option Int) (rt : ReminderType) : List ScheduledReminder :=
  match o with
  | some t =>
    if toggle && decide (now < t) &&
        (existingReminders.find? (fun r =>
          r.programId == program.id && r.reminderType == rt)).isNone then
      [mkReminder program rt t]
    else []
  | none => []

/-- scheduleReminders from src/unnamed/part_006, lines 74-118. -/
def scheduleReminders (program : FundingProgram) (now : Int) (s : NotifStore) :
    List ScheduledReminder × NotifStore :=
  let preferences := getPreferences s
  let existingReminders := getScheduledReminders s
  let dates := calculateReminderDates program.deadline
  let sevenPart : List ScheduledReminder :=
    kindPart program now existingReminders preferences.reminders.sevenDays dates.1
      ReminderType.seven_days
  let onePart : List ScheduledReminder :=
    kindPart program now existingReminders preferences.reminders.oneDay dates.2
      ReminderType.one_day
  let newReminders := sevenPart ++ onePart
  let s1 := if newReminders.isEmpty then s
    else saveScheduledReminders (existingReminders ++ newReminders) s
  (newReminders, s1)

/-- subscribeToProgram from src/unnamed/part_006, lines 123-130. -/
def subscribeToProgram (program : FundingProgram) (now : Int) (s : NotifStore) : NotifStore :=
  let preferences := getPreferences s
  if preferences.subscribedPrograms.contains program.id then s
  else
    let s1 := savePreferences
      { preferences with subscribedPrograms := preferences.subscribedPrograms ++ [program.id] } s
    (scheduleReminders program now s1).2

/-- unsubscribeFromProgram from src/unnamed/part_006, lines 135-146. -/
def unsubscribeFromProgram (programId : String) (s : NotifStore) : NotifStore :=
  let preferences := getPreferences s
  let s1 := savePreferences
    { preferences with
      subscribedPrograms := preferences.subscribedPrograms.filter (fun pid => pid != programId) } s
  let reminders := getScheduledReminders s1
  saveScheduledReminders (reminders.filter (fun r => r.programId != programId)) s1

/-- checkDueReminders from src/unnamed/part_006, lines 152-176.  `now` is the
instant at which the check runs. -/
def checkDueReminders (now : Int) (s : NotifStore) : List ScheduledReminder × NotifStore :=
  let preferences := getPreferences s
  if !preferences.enabled || preferences.email == "" then ([], s)
  else
    let reminders := getScheduledReminders s
    let dueReminders := reminders.filter (fun r => !r.sent && decide (r.scheduledDate ≤ now))
    let s1 := if dueReminders.isEmpty then s
      else saveScheduledReminders (reminders.map (fun r =>
        if (dueReminders.find? (fun dr =>
            dr.programId == r.programId && dr.reminderType == r.reminderType)).isSome then
          { r with sent := true }
        else r)) s
    (dueReminders, s1)

/-- One call against the notification store, for stating invariants over call
sequences. -/
inductive NotifOp
  | schedule (program : FundingProgram) (now : Int)
  | subscribe (program : FundingProgram) (now : Int)
  | unsubscribe (programId : String)
  | check (now : Int)

/-- The store after one call (returned lists discarded). -/
def runOp (op : NotifOp) (s : NotifStore) : NotifStore :=
  match op with
  | .schedule p now => (scheduleReminders p now s).2
  | .subscribe p now => subscribeToProgram p now s
  | .unsubscribe pid => unsubscribeFromProgram pid s
  | .check now => (checkDueReminders now s).2

/-- The store after a sequence of calls. -/
def runOps (ops : List NotifOp) (s : NotifStore) : NotifStore :=
  ops.foldl (fun st op => runOp op st) s

/-- The deduplication key of a reminder record. -/
def reminderKey (r : ScheduledReminder) : String × ReminderType :=
  (r.programId, r.reminderType)

/-- FilterState from src/components/SearchFilter (shape fixed by
SearchFilter.test.tsx): every field is a raw string or string list. -/
structure FilterState where
  searchQuery : String
  regions : List String
  minBudget : String
  maxBudget : String
  deadlineRange : String
  sortBy : String
deriving DecidableEq

/-- The documented default filter state. -/
def defaultFilterState : FilterState :=
  { searchQuery := ""
    regions := []
    minBudget := ""
    maxBudget := ""
    deadlineRange := "all"
    sortBy := "relevance" }

/-- The active-filters condition of programsToDisplay
(src/components/ProgramList.tsx, lines 116-118): JS truthiness of a string is
non-emptiness. -/
def hasActiveFilters (f : FilterState) : Bool :=
  f.searchQuery != "" || !f.regions.isEmpty || f.minBudget != "" || f.maxBudget != "" ||
    f.deadlineRange != "all" || f.sortBy != "relevance"

/-- The matchScores map of src/components/ProgramList.tsx, lines 49-53: a Map
filled in forEach order (a later entry for the same id wins) and read with
`?? 0`. -/
def matchScore (matchResults : List MatchResult) (pid : String) : Int :=
  match matchResults.foldl (fun acc m => if m.programId == pid then some m.score else acc) none with
  | some sc => sc
  | none => 0

/-- The `[...matches].sort((a, b) => b.score - a.score)` call: ECMA-262 sort is
stable and sorts by the comparator, which for this comparator is exactly the
stable merge sort under the order "a may precede b iff b.score ≤ a.score". -/
def sortedByScoreDesc (matchResults : List MatchResult) : List MatchResult :=
  matchResults.mergeSort (fun a b => decide (b.score ≤ a.score))

/-- The no-active-filters branch of programsToDisplay
(src/components/ProgramList.tsx, lines 122-125); the filter with a TS type
guard over `FundingProgram | undefined` is a filterMap. -/
def defaultDisplay (allPrograms : List FundingProgram) (matchResults : List MatchResult) :
    List FundingProgram :=
  (sortedByScoreDesc matchResults).filterMap (fun m =>
    match allPrograms.find? (fun p => p.id == m.programId) with
    | some p => if 20 ≤ matchScore matchResults p.id then some p else none
    | none => none)

/-- programsToDisplay from src/components/ProgramList.tsx, lines 115-126.
`activeFilters` is null before the SearchFilter component first reports. -/
def programsToDisplay (allPrograms : List FundingProgram) (matchResults : List MatchResult)
    (filteredPrograms : List FundingProgram) (activeFilters : Option FilterState) :
    List FundingProgram :=
  match activeFilters with
  | some f =>
    if hasActiveFilters f then filteredPrograms
    else defaultDisplay allPrograms matchResults
  | none => defaultDisplay allPrograms matchResults

/-! Helper lemmas. -/

theorem leadsList_iff (n h : List Char) : leadsList n h = true ↔ ∃ t, h = n ++ t := by
  induction n generalizing h with
  | nil => simp [leadsList]
  | cons a as ih =>
    cases h with
    | nil => simp [leadsList]
    | cons b bs =>
      simp only [leadsList, Bool.and_eq_true, beq_iff_eq, ih, List.cons_append,
        List.cons.injEq]
      constructor
      · rintro ⟨rfl, t, rfl⟩
        exact ⟨t, rfl, rfl⟩
      · rintro ⟨t, rfl, rfl⟩
        exact ⟨rfl, t, rfl⟩

theorem hasSub_iff (n h : List Char) : hasSub n h = true ↔ ∃ p t, h = p ++ n ++ t := by
  induction h with
  | nil =>
    simp only [hasSub, List.isEmpty_iff]
    constructor
    · rintro rfl
      exact ⟨[], [], rfl⟩
    · rintro ⟨p, t, h⟩
      rcases List.append_eq_nil.mp (List.append_eq_nil.mp h.symm).1 with ⟨-, h2⟩
      exact h2
  | cons c cs ih =>
    simp only [hasSub, Bool.or_eq_true, leadsList_iff, ih]
    constructor
    · rintro (⟨t, ht⟩ | ⟨p, t, rfl⟩)
      · exact ⟨[], t, by simpa using ht⟩
      · exact ⟨c :: p, t, rfl⟩
    · rintro ⟨p, t, hp⟩
      cases p with
      | nil => exact Or.inl ⟨t, by simpa using hp⟩
      | cons x xs =>
        simp only [List.cons_append, List.cons.injEq] at hp
        exact Or.inr ⟨xs, t, hp.2⟩

/-! Claim C9. -/

/-- C9: isProgramAvailableInState is true exactly when the region set contains
the nationwide code DE (regardless of the requested code) or contains the
requested code as an exact member; there is no partial or prefix matching. -/
theorem isProgramAvailableInState_spec (program : FundingProgram) (stateCode : String) :
    isProgramAvailableInState program stateCode = true ↔
      "DE" ∈ program.region ∨ stateCode ∈ program.region := by
  unfold isProgramAvailableInState
  by_cases h : program.region.contains "DE" <;> simp_all

/-- C9 witness: a Bavaria-only program is available in Bavaria, not in
Baden-Wuerttemberg, and a nationwide program is available anywhere. -/
theorem isProgramAvailableInState_spec_witness :
    isProgramAvailableInState
      { id := "a", title := "t", provider := "p", budget := "b", deadline := "d",
        focus := "f", description := "x", requirements := "r", region := ["DE-BY"] }
      "DE-BW" = false := by
  have h := isProgramAvailableInState_spec
    { id := "a", title := "t", provider := "p", budget := "b", deadline := "d",
      focus := "f", description := "x", requirements := "r", region := ["DE-BY"] } "DE-BW"
  simp only [List.mem_singleton] at h
  by_cases hb : isProgramAvailableInState
      { id := "a", title := "t", provider := "p", budget := "b", deadline := "d",
        focus := "f", description := "x", requirements := "r", region := ["DE-BY"] }
      "DE-BW" = true
  · rcases h.mp hb with h1 | h1 <;> simp at h1
  · simpa using hb

/-! Claim C1. -/

/-- A funding program with the German-format deadline 31.03.2026, the shape
this repository stores (funding.test.ts parses exactly this string). -/
def germanDeadlineProgram : FundingProgram :=
  { id := "p1", title := "Digitalpakt", provider := "Bund", budget := "5.000€",
    deadline := "31.03.2026", focus := "MINT", description := "Foerderung",
    requirements := "Grundschule", region := ["DE"] }

/-- The empty store: fresh session, both documents absent. -/
def emptyStore : NotifStore := { prefsDoc := none, remindersDoc := none }

/-- C1 (code bug): the scheduler does NOT use parseDeadline.  At 2026-01-01
with default preferences (both reminder kinds enabled), the deadline
31.03.2026 parses under parseDeadline to day 20543 (2026-03-31), both claimed
reminder instants (7 days and 1 day before) lie strictly in the future, yet
calculateReminderDates feeds the string to the host Date constructor, obtains
an invalid date, and scheduleReminders creates no reminder at all and leaves
the store untouched. -/
theorem scheduleReminders_skips_german_deadline :
    parseDeadline "31.03.2026" = some 20543 ∧
    daysFromCivil 2026 1 1 * msPerDay < (20543 - 7) * msPerDay ∧
    daysFromCivil 2026 1 1 * msPerDay < (20543 - 1) * msPerDay ∧
    (getPreferences emptyStore).reminders.sevenDays = true ∧
    (getPreferences emptyStore).reminders.oneDay = true ∧
    jsDateParse "31.03.2026" = none ∧
    calculateReminderDates "31.03.2026" = (none, none) ∧
    scheduleReminders germanDeadlineProgram (daysFromCivil 2026 1 1 * msPerDay) emptyStore =
      ([], emptyStore) := by
  decide

/-! Claim C4. -/

theorem germanLead_cons_none (k : Nat) (c : Char) (cs : List Char) (hc : c.isDigit = false) :
    germanLead (k + 1) (c :: cs) = none := by
  simp [germanLead, hc]

theorem findGerman_eq_none (cs : List Char) (h : ∀ c ∈ cs, c.isDigit = false) :
    findGerman cs = none := by
  induction cs with
  | nil => rfl
  | cons c cs ih =>
    have hc : c.isDigit = false := h c (List.mem_cons_self c cs)
    have h3 := germanLead_cons_none 2 c cs hc
    have h2 := germanLead_cons_none 1 c cs hc
    have h1 := germanLead_cons_none 0 c cs hc
    simp only [findGerman, germanAt, h3, h2, h1]
    exact ih fun x hx => h x (List.mem_cons_of_mem c hx)

theorem findPlainDecimal_eq_none (cs : List Char) (h : ∀ c ∈ cs, c.isDigit = false) :
    findPlainDecimal cs = none := by
  induction cs with
  | nil => rfl
  | cons c cs ih =>
    have hc : c.isDigit = false := h c (List.mem_cons_self c cs)
    simp only [findPlainDecimal, plainDecimalAt, List.takeWhile_cons, hc]
    simp only [Bool.false_eq_true, if_false, List.isEmpty_nil, if_true]
    exact ih fun x hx => h x (List.mem_cons_of_mem c hx)

theorem findPlainNumber_eq_none (cs : List Char) (h : ∀ c ∈ cs, c.isDigit = false) :
    findPlainNumber cs = none := by
  induction cs with
  | nil => rfl
  | cons c cs ih =>
    have hc : c.isDigit = false := h c (List.mem_cons_self c cs)
    simp only [findPlainNumber, hc, Bool.false_eq_true, if_false]
    exact ih fun x hx => h x (List.mem_cons_of_mem c hx)

/-- C4: parseBudget is total by construction (every branch returns a value and
the `isNaN` fallback to 0 covers the rest, so no input throws); a string with
no digit character yields 0; the five fixtures hold; and whenever a million
marker is present the value is scaled by 1 000 000, even if a thousand marker
is present as well. -/
theorem parseBudget_spec :
    (∀ s : String, (∀ c ∈ s.data, c.isDigit = false) → parseBudget s = 0) ∧
    parseBudget "5.000€" = 5000 ∧
    parseBudget "1,5 Mio €" = 1500000 ∧
    parseBudget "50 Tsd €" = 50000 ∧
    parseBudget "Max. 10.000 €" = 10000 ∧
    parseBudget "Ausstattung" = 0 ∧
    (∀ s : String,
      (hasSub "mio".data (lowerChars s) || hasSub "million".data (lowerChars s)) = true →
      (hasSub "tsd".data (lowerChars s) || hasSub "tausend".data (lowerChars s)) = true →
      parseBudget s =
        (match extractBudgetParts s with
         | some (ip, fp) => ratFromParts ip fp * 1000000
         | none => 0)) := by
  refine ⟨?_, ?_, ?_, ?_, ?_, ?_, ?_⟩
  · intro s h
    unfold parseBudget extractBudgetParts
    rw [findGerman_eq_none s.data h, findPlainDecimal_eq_none s.data h,
      findPlainNumber_eq_none s.data h]
  · have h : extractBudgetParts "5.000€" = some (['5','0','0','0'], []) := by decide
    have hm : (hasSub "mio".data (lowerChars "5.000€") ||
        hasSub "million".data (lowerChars "5.000€")) = false := by decide
    have ht : (hasSub "tsd".data (lowerChars "5.000€") ||
        hasSub "tausend".data (lowerChars "5.000€")) = false := by decide
    have hd : digitsToNat ['5','0','0','0'] = 5000 := by decide
    unfold parseBudget
    rw [h]
    simp only [hm, ht, Bool.false_eq_true, if_false]
    have hd0 : digitsToNat ([] : List Char) = 0 := by decide
    norm_num [ratFromParts, hd, hd0]
  · have h : extractBudgetParts "1,5 Mio €" = some (['1'], ['5']) := by decide
    have hm : (hasSub "mio".data (lowerChars "1,5 Mio €") ||
        hasSub "million".data (lowerChars "1,5 Mio €")) = true := by decide
    have hd1 : digitsToNat ['1'] = 1 := by decide
    have hd2 : digitsToNat ['5'] = 5 := by decide
    unfold parseBudget
    rw [h]
    simp only [hm, if_true]
    norm_num [ratFromParts, hd1, hd2]
  · have h : extractBudgetParts "50 Tsd €" = some (['5','0'], []) := by decide
    have hm : (hasSub "mio".data (lowerChars "50 Tsd €") ||
        hasSub "million".data (lowerChars "50 Tsd €")) = false := by decide
    have ht : (hasSub "tsd".data (lowerChars "50 Tsd €") ||
        hasSub "tausend".data (lowerChars "50 Tsd €")) = true := by decide
    have hd : digitsToNat ['5','0'] = 50 := by decide
    unfold parseBudget
    rw [h]
    simp only [hm, ht, Bool.false_eq_true, if_false, if_true]
    have hd0 : digitsToNat ([] : List Char) = 0 := by decide
    norm_num [ratFromParts, hd, hd0]
  · have h : extractBudgetParts "Max. 10.000 €" = some (['1','0','0','0','0'], []) := by decide
    have hm : (hasSub "mio".data (lowerChars "Max. 10.000 €") ||
        hasSub "million".data (lowerChars "Max. 10.000 €")) = false := by decide
    have ht : (hasSub "tsd".data (lowerChars "Max. 10.000 €") ||
        hasSub "tausend".data (lowerChars "Max. 10.000 €")) = false := by decide
    have hd : digitsToNat ['1','0','0','0','0'] = 10000 := by decide
    unfold parseBudget
    rw [h]
    simp only [hm, ht, Bool.false_eq_true, if_false]
    have hd0 : digitsToNat ([] : List Char) = 0 := by decide
    norm_num [ratFromParts, hd, hd0]
  · have h : extractBudgetParts "Ausstattung" = none := by decide
    unfold parseBudget
    rw [h]
  · intro s hm ht
    unfold parseBudget
    rcases hx : extractBudgetParts s with - | ⟨ip, fp⟩
    · rfl
    · simp only [hm, if_true]

/-- C4 witness: the no-digit clause at the input N/A, and the
million-precedence clause at an input holding both markers. -/
theorem parseBudget_spec_witness :
    parseBudget "N/A" = 0 ∧ parseBudget "1 Mio Tsd" = 1000000 := by
  constructor
  · exact parseBudget_spec.1 "N/A" (by decide)
  · have h := parseBudget_spec.2.2.2.2.2.2 "1 Mio Tsd" (by decide) (by decide)
    have hx : extractBudgetParts "1 Mio Tsd" = some (['1'], []) := by decide
    rw [hx] at h
    rw [h]
    have hd1 : digitsToNat ['1'] = 1 := by decide
    have hd0 : digitsToNat ([] : List Char) = 0 := by decide
    norm_num [ratFromParts, hd1, hd0]

/-! Claim C5. -/

theorem ceilDivInt_bounds (a b : Int) (hb : 0 < b) :
    (ceilDivInt a b - 1) * b < a ∧ a ≤ ceilDivInt a b * b := by
  unfold ceilDivInt
  have h1 : b * ((-a).ediv b) + (-a).emod b = -a := Int.ediv_add_emod (-a) b
  have h2 : 0 ≤ (-a).emod b := Int.emod_nonneg (-a) (by omega)
  have h3 : (-a).emod b < b := Int.emod_lt_of_pos (-a) hb
  constructor
  · nlinarith [h1, h2, h3]
  · nlinarith [h1, h2, h3]

/-- C5: getDaysUntilDeadline returns the ongoing marker exactly when
parseDeadline does; otherwise its value is the ceiling of the whole-day
difference between the deadline local midnight and the reference instant
(characterized by the two ceiling inequalities, so negative values are
preserved, not clamped); and the three fixtures hold, the second with the
negative value -15. -/
theorem getDaysUntilDeadline_spec :
    (∀ (s : String) (t : Int), getDaysUntilDeadline s t = none ↔ parseDeadline s = none) ∧
    (∀ (s : String) (t dn r : Int), parseDeadline s = some dn →
      getDaysUntilDeadline s t = some r →
      (r - 1) * msPerDay < dn * msPerDay - t ∧ dn * msPerDay - t ≤ r * msPerDay) ∧
    getDaysUntilDeadline "31.01.2026" (daysFromCivil 2026 1 1 * msPerDay) = some 30 ∧
    getDaysUntilDeadline "31.01.2026" (daysFromCivil 2026 2 15 * msPerDay) = some (-15) ∧
    getDaysUntilDeadline "31.01.2026" (daysFromCivil 2026 1 31 * msPerDay) = some 0 := by
  refine ⟨?_, ?_, by decide, by decide, by decide⟩
  · intro s t
    unfold getDaysUntilDeadline
    rcases parseDeadline s with - | dn <;> simp
  · intro s t dn r hp hr
    unfold getDaysUntilDeadline at hr
    rw [hp] at hr
    simp only [Option.some.injEq] at hr
    have hb : (0 : Int) < msPerDay := by decide
    have := ceilDivInt_bounds (dn * msPerDay - t) msPerDay hb
    rw [hr] at this
    exact this

/-- C5 witness: the ceiling characterization applied to the fixture deadline
31.01.2026 with reference 2026-01-01, giving value 30 with its two bounds. -/
theorem getDaysUntilDeadline_spec_witness :
    (30 - 1 : Int) * msPerDay < 20484 * msPerDay - daysFromCivil 2026 1 1 * msPerDay ∧
    20484 * msPerDay - daysFromCivil 2026 1 1 * msPerDay ≤ (30 : Int) * msPerDay := by
  exact getDaysUntilDeadline_spec.2.1 "31.01.2026" (daysFromCivil 2026 1 1 * msPerDay)
    20484 30 (by decide) (by decide)

/-! Claim C6. -/

/-- A run of ASCII digits with length between `lo` and `hi`. -/
def digitSeg (l : List Char) (lo hi : Nat) : Prop :=
  lo ≤ l.length ∧ l.length ≤ hi ∧ ∀ c ∈ l, c.isDigit = true

/-- The regex `(\d{1,2})\.(\d{1,2})\.(\d{4})` matches somewhere in the string:
some decomposition exhibits day digits, month digits and four year digits
separated by dots. -/
def dmyShape (cs : List Char) : Prop :=
  ∃ pre ds ms ys post, cs = pre ++ (ds ++ '.' :: (ms ++ '.' :: (ys ++ post))) ∧
    digitSeg ds 1 2 ∧ digitSeg ms 1 2 ∧ digitSeg ys 4 4

theorem digitRun_some {k : Nat} {cs : List Char} {v : Nat} {rest : List Char}
    (h : digitRun k cs = some (v, rest)) :
    ∃ ds, cs = ds ++ rest ∧ ds.length = k ∧ (∀ c ∈ ds, c.isDigit = true) ∧
      v = digitsToNat ds := by
  unfold digitRun at h
  by_cases hc : ((cs.take k).length == k && (cs.take k).all Char.isDigit) = true
  · rw [if_pos hc] at h
    simp only [Option.some.injEq, Prod.mk.injEq] at h
    simp only [Bool.and_eq_true, beq_iff_eq, List.all_eq_true] at hc
    exact ⟨cs.take k, by rw [← h.2, List.take_append_drop], hc.1,
      fun c hmem => hc.2 c hmem, h.1.symm⟩
  · rw [if_neg hc] at h
    exact absurd h (by simp)

theorem digitRun_of_run {k : Nat} {ds : List Char} (rest : List Char) (hlen : ds.length = k)
    (hdig : ∀ c ∈ ds, c.isDigit = true) :
    digitRun k (ds ++ rest) = some (digitsToNat ds, rest) := by
  unfold digitRun
  have ht : (ds ++ rest).take k = ds := by
    rw [← hlen]
    exact List.take_left ds rest
  have hd : (ds ++ rest).drop k = rest := by
    rw [← hlen]
    exact List.drop_left ds rest
  rw [ht, hd, if_pos]
  simp only [hlen, beq_self_eq_true, Bool.true_and, List.all_eq_true]
  exact hdig

theorem twoDigitRun_some {cs : List Char} {v : Nat} {rest : List Char}
    (h : twoDigitRun cs = some (v, rest)) :
    ∃ ds, cs = ds ++ rest ∧ digitSeg ds 1 2 ∧ v = digitsToNat ds := by
  unfold twoDigitRun at h
  rcases h2 : digitRun 2 cs with - | r2
  · rw [h2] at h
    rcases digitRun_some h with ⟨ds, hcs, hlen, hdig, hv⟩
    exact ⟨ds, hcs, ⟨by omega, by omega, hdig⟩, hv⟩
  · rw [h2] at h
    rcases digitRun_some h2 with ⟨ds, hcs, hlen, hdig, hv⟩
    cases h
    exact ⟨ds, hcs, ⟨by omega, by omega, hdig⟩, hv⟩

theorem twoDigitRun_dot {ds : List Char} (hseg : digitSeg ds 1 2) (rest : List Char) :
    twoDigitRun (ds ++ '.' :: rest) = some (digitsToNat ds, '.' :: rest) := by
  obtain ⟨h1, h2, hdig⟩ := hseg
  unfold twoDigitRun
  interval_cases h : ds.length
  · rw [digitRun_of_run ('.' :: rest) h hdig]
    have hnone : digitRun 2 (ds ++ '.' :: rest) = none := by
      rcases ds with - | ⟨a, as⟩
      · simp at h
      · rcases as with - | ⟨b, bs⟩
        · unfold digitRun
          rw [if_neg]
          simp only [List.cons_append, List.nil_append, List.take_succ_cons, List.take,
            Bool.and_eq_true, beq_iff_eq, List.all_eq_true, not_and]
          intro hlen hall
          have := hall '.' (by simp)
          simp at this
        · simp at h
    rw [hnone]
  · rw [digitRun_of_run ('.' :: rest) h hdig]

theorem expectDot_cons (r : List Char) : expectDot ('.' :: r) = some r := rfl

theorem expectDot_eq_some {l r : List Char} : expectDot l = some r ↔ l = '.' :: r := by
  cases l with
  | nil => simp [expectDot]
  | cons c t =>
    simp only [expectDot, List.cons.injEq]
    by_cases hc : c = '.' <;> simp [hc]

theorem dmyAt_some_shape {cs : List Char} {d m y : Nat}
    (h : dmyAt cs = some (d, m, y)) :
    ∃ ds ms ys post, cs = ds ++ '.' :: (ms ++ '.' :: (ys ++ post)) ∧
      digitSeg ds 1 2 ∧ digitSeg ms 1 2 ∧ digitSeg ys 4 4 := by
  unfold dmyAt at h
  rcases h1 : twoDigitRun cs with - | ⟨d0, rest1⟩
  · rw [h1] at h
    simp at h
  rw [h1] at h
  simp only [Option.bind_eq_bind, Option.some_bind] at h
  rcases h1b : expectDot rest1 with - | rest2
  · rw [h1b] at h
    simp at h
  rw [h1b] at h
  simp only [Option.some_bind] at h
  rcases h2 : twoDigitRun rest2 with - | ⟨m0, rest3⟩
  · rw [h2] at h
    simp at h
  rw [h2] at h
  simp only [Option.some_bind] at h
  rcases h2b : expectDot rest3 with - | rest4
  · rw [h2b] at h
    simp at h
  rw [h2b] at h
  simp only [Option.some_bind] at h
  rcases h3 : digitRun 4 rest4 with - | ⟨y0, rest5⟩
  · rw [h3] at h
    simp at h
  obtain ⟨ds, hds, hdseg, -⟩ := twoDigitRun_some h1
  obtain ⟨ms, hms, hmseg, -⟩ := twoDigitRun_some h2
  obtain ⟨ys, hys, hylen, hydig, -⟩ := digitRun_some h3
  refine ⟨ds, ms, ys, rest5, ?_, hdseg, hmseg, ⟨by omega, by omega, hydig⟩⟩
  rw [hds, expectDot_eq_some.mp h1b, hms, expectDot_eq_some.mp h2b, hys]

theorem dmyAt_of_shape {ds ms ys : List Char} (post : List Char)
    (hd : digitSeg ds 1 2) (hm : digitSeg ms 1 2) (hy : digitSeg ys 4 4) :
    dmyAt (ds ++ '.' :: (ms ++ '.' :: (ys ++ post))) =
      some (digitsToNat ds, digitsToNat ms, digitsToNat ys) := by
  have hylen : ys.length = 4 := by
    obtain ⟨a, b, -⟩ := hy
    omega
  unfold dmyAt
  rw [twoDigitRun_dot hd]
  simp only [Option.bind_eq_bind, Option.some_bind, expectDot_cons]
  rw [twoDigitRun_dot hm]
  simp only [Option.some_bind, expectDot_cons]
  rw [digitRun_of_run post hylen hy.2.2]
  simp only [Option.some_bind]
  rfl

theorem findDMY_some_shape {cs : List Char} {r : Nat × Nat × Nat}
    (h : findDMY cs = some r) : dmyShape cs := by
  induction cs with
  | nil => simp [findDMY] at h
  | cons c cs ih =>
    rcases ha : dmyAt (c :: cs) with - | v
    · simp only [findDMY, ha] at h
      obtain ⟨pre, ds, ms, ys, post, hcs, hd, hm, hy⟩ := ih h
      exact ⟨c :: pre, ds, ms, ys, post, by rw [List.cons_append, hcs], hd, hm, hy⟩
    · obtain ⟨d, m, y⟩ := v
      obtain ⟨ds, ms, ys, post, hcs, hd, hm, hy⟩ := dmyAt_some_shape ha
      exact ⟨[], ds, ms, ys, post, by rw [List.nil_append, hcs], hd, hm, hy⟩

theorem findDMY_isSome_of_shape {cs : List Char} (h : dmyShape cs) :
    (findDMY cs).isSome = true := by
  obtain ⟨pre, ds, ms, ys, post, hcs, hd, hm, hy⟩ := h
  subst hcs
  have hat := dmyAt_of_shape post hd hm hy
  induction pre with
  | nil =>
    obtain ⟨a, as, rfl⟩ : ∃ a as, ds = a :: as := by
      rcases ds with - | ⟨a, as⟩
      · obtain ⟨h1, -, -⟩ := hd
        simp at h1
      · exact ⟨a, as, rfl⟩
    rw [List.cons_append] at hat
    rw [List.nil_append, List.cons_append]
    simp only [findDMY, hat]
    rfl
  | cons p ps ih =>
    rw [List.cons_append]
    rcases ha : dmyAt (p :: (ps ++ (ds ++ '.' :: (ms ++ '.' :: (ys ++ post))))) with - | v
    · simp only [findDMY, ha]
      exact ih
    · simp [findDMY, ha]

theorem findDMY_eq_none_iff {cs : List Char} : findDMY cs = none ↔ ¬ dmyShape cs := by
  constructor
  · intro h hshape
    have := findDMY_isSome_of_shape hshape
    rw [h] at this
    simp at this
  · intro h
    rcases hf : findDMY cs with - | r
    · rfl
    · exact absurd (findDMY_some_shape hf) h

/-- C6 (as amended): parseDeadline yields the null marker whenever laufend
occurs case-insensitively anywhere in the input; otherwise, when the
day.month.year pattern occurs anywhere (characterized by dmyShape), the
result is the date built by the host Date(year, month-1, day) constructor
from the leftmost match, with the month read as 1-indexed and the year
subject to the constructor MakeFullYear rule (a year field of 0..99 denotes
1900 + year — see the counterexample below for why the unadjusted reading is
false of the code); when no pattern occurs the result is the very same null
marker, so callers cannot distinguish ongoing from unparsable. -/
theorem parseDeadline_spec (s : String) :
    ((∃ p t, lowerChars s = p ++ "laufend".data ++ t) → parseDeadline s = none) ∧
    (findDMY s.data = none ↔ ¬ dmyShape s.data) ∧
    ((¬ ∃ p t, lowerChars s = p ++ "laufend".data ++ t) →
      (∀ d m y, findDMY s.data = some (d, m, y) →
        parseDeadline s = some (jsMakeDay (y : Int) ((m : Int) - 1) (d : Int))) ∧
      (¬ dmyShape s.data → parseDeadline s = none)) := by
  refine ⟨?_, findDMY_eq_none_iff, ?_⟩
  · intro hocc
    have hb : hasSub "laufend".data (lowerChars s) = true := (hasSub_iff _ _).mpr hocc
    unfold parseDeadline
    rw [if_pos hb]
  · intro hnocc
    have hb : hasSub "laufend".data (lowerChars s) = false := by
      rcases hv : hasSub "laufend".data (lowerChars s)
      · rfl
      · exact absurd ((hasSub_iff _ _).mp hv) hnocc
    constructor
    · intro d m y hf
      unfold parseDeadline
      rw [hb, if_neg (by simp), hf]
    · intro hshape
      unfold parseDeadline
      rw [hb, if_neg (by simp), findDMY_eq_none_iff.mpr hshape]

/-- C6 witness: the ongoing clause at laufend 2026, and the pattern clause at
the fixture 31.03.2026, giving the civil day of 2026-03-31. -/
theorem parseDeadline_spec_witness :
    parseDeadline "laufend 2026" = none ∧
    parseDeadline "31.03.2026" = some (jsMakeDay 2026 (3 - 1) 31) := by
  constructor
  · exact (parseDeadline_spec "laufend 2026").1 ⟨[], " 2026".data, by decide⟩
  · exact ((parseDeadline_spec "31.03.2026").2.2 (by
      intro hocc
      have : hasSub "laufend".data (lowerChars "31.03.2026") = true :=
        (hasSub_iff _ _).mpr hocc
      simp only [show hasSub "laufend".data (lowerChars "31.03.2026") = false from by decide] at this
      exact absurd this (by simp))).1 31 3 2026 (by decide)

/-- C6 counterexample to the claim as stated: at 31.12.0099 the regex matches
day 31, month 12, year 99, but the code does not return the calendar date
with that year — the Date constructor MakeFullYear rule maps the year field
99 to 1999, so parseDeadline returns 1999-12-31, not 0099-12-31 (both are
in-range civil dates, so no day or month normalization is involved). -/
theorem parseDeadline_spec_counterexample :
    findDMY "31.12.0099".data = some (31, 12, 99) ∧
    parseDeadline "31.12.0099" = some (daysFromCivil 1999 12 31) ∧
    parseDeadline "31.12.0099" ≠ some (daysFromCivil 99 12 31) := by
  decide

/-- A concrete reminder record used by closed witness statements. -/
def wReminder : ScheduledReminder :=
  { programId := "p1"
    programTitle := "T"
    deadline := "31.03.2026"
    reminderType := ReminderType.seven_days
    scheduledDate := 3
    sent := false }

/-- Concrete preferences with delivery enabled and an email configured. -/
def wPrefs : NotificationPreferences :=
  { email := "schule@example.de"
    enabled := true
    reminders := { sevenDays := true, oneDay := true }
    subscribedPrograms := ["p1"] }

/-- A concrete store with delivery enabled and one due reminder. -/
def wStore : NotifStore :=
  { prefsDoc := some (some wPrefs), remindersDoc := some (some [wReminder]) }

/-! Claim C2. -/

theorem getPreferences_saveReminders (l : List ScheduledReminder) (s : NotifStore) :
    getPreferences (saveScheduledReminders l s) = getPreferences s := rfl

theorem getScheduledReminders_saveReminders (l : List ScheduledReminder) (s : NotifStore) :
    getScheduledReminders (saveScheduledReminders l s) = l := rfl

theorem getScheduledReminders_savePreferences (p : NotificationPreferences) (s : NotifStore) :
    getScheduledReminders (savePreferences p s) = getScheduledReminders s := rfl

/-- The guard of checkDueReminders as a proposition. -/
theorem checkDueReminders_disabled (now : Int) (s : NotifStore)
    (h : (getPreferences s).enabled = false ∨ (getPreferences s).email = "") :
    checkDueReminders now s = ([], s) := by
  unfold checkDueReminders
  have hc : (!(getPreferences s).enabled || (getPreferences s).email == "") = true := by
    rcases h with h | h <;> simp [h]
  rw [if_pos hc]

theorem checkDueReminders_enabled (now : Int) (s : NotifStore)
    (he : (getPreferences s).enabled = true) (hm : (getPreferences s).email ≠ "") :
    checkDueReminders now s =
      (let reminders := getScheduledReminders s
       let dueReminders := reminders.filter (fun r => !r.sent && decide (r.scheduledDate ≤ now))
       (dueReminders,
        if dueReminders.isEmpty then s
        else saveScheduledReminders (reminders.map (fun r =>
          if (dueReminders.find? (fun dr =>
              dr.programId == r.programId && dr.reminderType == r.reminderType)).isSome then
            { r with sent := true }
          else r)) s)) := by
  unfold checkDueReminders
  rw [if_neg]
  simp [he, hm]

theorem checkDueReminders_fst (now : Int) (s : NotifStore)
    (he : (getPreferences s).enabled = true) (hm : (getPreferences s).email ≠ "") :
    (checkDueReminders now s).1 =
      (getScheduledReminders s).filter (fun r => !r.sent && decide (r.scheduledDate ≤ now)) := by
  rw [checkDueReminders_enabled now s he hm]

theorem checkDueReminders_snd (now : Int) (s : NotifStore)
    (he : (getPreferences s).enabled = true) (hm : (getPreferences s).email ≠ "")
    (hne : (checkDueReminders now s).1 ≠ []) :
    getScheduledReminders (checkDueReminders now s).2 =
      (getScheduledReminders s).map (fun r =>
        if ((checkDueReminders now s).1.find? (fun dr =>
            dr.programId == r.programId && dr.reminderType == r.reminderType)).isSome then
          { r with sent := true }
        else r) := by
  rw [checkDueReminders_fst now s he hm] at hne ⊢
  rw [checkDueReminders_enabled now s he hm]
  simp only []
  rw [if_neg]
  · rw [getScheduledReminders_saveReminders]
  · simp only [List.isEmpty_iff]
    exact hne

theorem checkDueReminders_prefs (now : Int) (s : NotifStore) :
    getPreferences (checkDueReminders now s).2 = getPreferences s := by
  unfold checkDueReminders
  by_cases hg : (!(getPreferences s).enabled || (getPreferences s).email == "") = true
  · rw [if_pos hg]
  · rw [if_neg hg]
    simp only []
    by_cases hemp : ((getScheduledReminders s).filter
        (fun r => !r.sent && decide (r.scheduledDate ≤ now))).isEmpty = true
    · rw [if_pos hemp]
    · rw [if_neg hemp]
      rfl

/-- C2: checkDueReminders returns the empty list and leaves the store
untouched when the master switch is off or the contact email is empty;
otherwise the returned list holds exactly the unsent reminders due at `now`
(each returned in its pre-mutation sent = false snapshot while the same record
is persisted with sent = true); and across two successive calls, the second at
the same or a later instant, no (program id, reminder kind) pair is returned
twice. -/
theorem checkDueReminders_spec :
    (∀ (now : Int) (s : NotifStore),
      (getPreferences s).enabled = false ∨ (getPreferences s).email = "" →
      checkDueReminders now s = ([], s)) ∧
    (∀ (now : Int) (s : NotifStore),
      (getPreferences s).enabled = true → (getPreferences s).email ≠ "" →
      (∀ r : ScheduledReminder,
        r ∈ (checkDueReminders now s).1 ↔
          r ∈ getScheduledReminders s ∧ r.sent = false ∧ r.scheduledDate ≤ now) ∧
      (∀ r ∈ (checkDueReminders now s).1,
        { r with sent := true } ∈ getScheduledReminders (checkDueReminders now s).2)) ∧
    (∀ (now1 now2 : Int) (s : NotifStore), now1 ≤ now2 →
      ∀ r1 ∈ (checkDueReminders now1 s).1,
        ∀ r2 ∈ (checkDueReminders now2 (checkDueReminders now1 s).2).1,
          ¬(r1.programId = r2.programId ∧ r1.reminderType = r2.reminderType)) := by
  have hmem : ∀ (now : Int) (s : NotifStore),
      (getPreferences s).enabled = true → (getPreferences s).email ≠ "" →
      ∀ r : ScheduledReminder,
        r ∈ (checkDueReminders now s).1 ↔
          r ∈ getScheduledReminders s ∧ r.sent = false ∧ r.scheduledDate ≤ now := by
    intro now s he hm r
    rw [checkDueReminders_fst now s he hm, List.mem_filter]
    simp
  refine ⟨fun now s h => checkDueReminders_disabled now s h, ?_, ?_⟩
  · intro now s he hm
    refine ⟨hmem now s he hm, ?_⟩
    intro r hr
    have hne : (checkDueReminders now s).1 ≠ [] := List.ne_nil_of_mem hr
    rw [checkDueReminders_snd now s he hm hne]
    have hrs : r ∈ getScheduledReminders s := ((hmem now s he hm r).mp hr).1
    have hfind : ((checkDueReminders now s).1.find? (fun dr =>
        dr.programId == r.programId && dr.reminderType == r.reminderType)).isSome = true :=
      List.find?_isSome.mpr ⟨r, hr, by simp⟩
    have : (fun x => if ((checkDueReminders now s).1.find? (fun dr =>
        dr.programId == x.programId && dr.reminderType == x.reminderType)).isSome then
          { x with sent := true } else x) r = { r with sent := true } := by
      simp only [hfind, if_true]
    exact this ▸ List.mem_map_of_mem _ hrs
  · intro now1 now2 s hle r1 hr1 r2 hr2 hkey
    by_cases he : (getPreferences s).enabled = true
    swap
    · rw [checkDueReminders_disabled now1 s (Or.inl (by simpa using he))] at hr1
      simp at hr1
    by_cases hm : (getPreferences s).email = ""
    · rw [checkDueReminders_disabled now1 s (Or.inr hm)] at hr1
      simp at hr1
    have hne : (checkDueReminders now1 s).1 ≠ [] := List.ne_nil_of_mem hr1
    have he2 : (getPreferences (checkDueReminders now1 s).2).enabled = true := by
      rw [checkDueReminders_prefs]
      exact he
    have hm2 : (getPreferences (checkDueReminders now1 s).2).email ≠ "" := by
      rw [checkDueReminders_prefs]
      exact hm
    have h2 := (hmem now2 (checkDueReminders now1 s).2 he2 hm2 r2).mp hr2
    obtain ⟨h2mem, h2sent, -⟩ := h2
    rw [checkDueReminders_snd now1 s he hm hne] at h2mem
    obtain ⟨a, hamem, hfa⟩ := List.mem_map.mp h2mem
    by_cases hfind : ((checkDueReminders now1 s).1.find? (fun dr =>
        dr.programId == a.programId && dr.reminderType == a.reminderType)).isSome = true
    · rw [if_pos hfind] at hfa
      rw [← hfa] at h2sent
      simp at h2sent
    · rw [if_neg hfind] at hfa
      subst hfa
      apply hfind
      exact List.find?_isSome.mpr ⟨r1, hr1, by simp [hkey.1, hkey.2]⟩

/-- C2 witness: a store with one due unsent reminder, master switch on and an
email configured: the reminder is returned with sent = false, persisted as
sent = true, and a second later check returns nothing for that pair. -/
theorem checkDueReminders_spec_witness :
    (checkDueReminders 5 wStore).1 = [wReminder] ∧
    { wReminder with sent := true } ∈ getScheduledReminders (checkDueReminders 5 wStore).2 ∧
    checkDueReminders 0 { prefsDoc := none, remindersDoc := none } =
      ([], { prefsDoc := none, remindersDoc := none }) ∧
    ¬((wReminder.programId = wReminder.programId ∧
        wReminder.reminderType = wReminder.reminderType) ∧
      wReminder ∈ (checkDueReminders 7 (checkDueReminders 5 wStore).2).1) := by
  refine ⟨by decide, ?_, ?_, ?_⟩
  · exact (checkDueReminders_spec.2.1 5 wStore (by decide) (by decide)).2 wReminder (by decide)
  · exact checkDueReminders_spec.1 0 { prefsDoc := none, remindersDoc := none } (Or.inl (by decide))
  · intro hcon
    exact checkDueReminders_spec.2.2 5 7 wStore (by omega) wReminder (by decide) wReminder
      hcon.2 hcon.1

/-! Claim C8. -/

theorem getPreferences_savePreferences (p : NotificationPreferences) (s : NotifStore) :
    getPreferences (savePreferences p s) = p := rfl

/-- C8: after unsubscribeFromProgram the preferences no longer hold the id in
the subscription set, no reminder record with that program id survives (sent
or unsent), and every record of a different program keeps its exact
multiplicity in the store. -/
theorem unsubscribeFromProgram_spec (programId : String) (s : NotifStore) :
    programId ∉ (getPreferences (unsubscribeFromProgram programId s)).subscribedPrograms ∧
    (∀ r ∈ getScheduledReminders (unsubscribeFromProgram programId s), r.programId ≠ programId) ∧
    (∀ r : ScheduledReminder, r.programId ≠ programId →
      (getScheduledReminders (unsubscribeFromProgram programId s)).count r =
        (getScheduledReminders s).count r) := by
  unfold unsubscribeFromProgram
  refine ⟨?_, ?_, ?_⟩
  · rw [getPreferences_saveReminders, getPreferences_savePreferences]
    intro hmem
    rcases List.mem_filter.mp hmem with ⟨-, hne⟩
    simp at hne
  · intro r hr
    rw [getScheduledReminders_saveReminders] at hr
    rcases List.mem_filter.mp hr with ⟨-, hne⟩
    simpa using hne
  · intro r hne
    rw [getScheduledReminders_saveReminders, getScheduledReminders_savePreferences]
    exact List.count_filter (by simpa using hne)

/-- C8 witness: unsubscribing p1 from the concrete store purges its reminder
and its subscription while a p2 record keeps its multiplicity. -/
theorem unsubscribeFromProgram_spec_witness :
    "p1" ∉ (getPreferences (unsubscribeFromProgram "p1" wStore)).subscribedPrograms ∧
    (getScheduledReminders (unsubscribeFromProgram "p1" wStore)).count
        { wReminder with programId := "p2" } =
      (getScheduledReminders wStore).count { wReminder with programId := "p2" } := by
  exact ⟨(unsubscribeFromProgram_spec "p1" wStore).1,
    (unsubscribeFromProgram_spec "p1" wStore).2.2 { wReminder with programId := "p2" }
      (by decide)⟩

/-! Claim C10. -/

theorem scheduleReminders_fresh {p : FundingProgram} {now t7 t1 : Int} {s : NotifStore}
    (h7c : (getPreferences s).reminders.sevenDays = true)
    (h1c : (getPreferences s).reminders.oneDay = true)
    (hex : getScheduledReminders s = [])
    (hdates : calculateReminderDates p.deadline = (some t7, some t1))
    (h7 : now < t7) (h1 : now < t1) :
    scheduleReminders p now s =
      ([mkReminder p ReminderType.seven_days t7, mkReminder p ReminderType.one_day t1],
       saveScheduledReminders
         [mkReminder p ReminderType.seven_days t7, mkReminder p ReminderType.one_day t1] s) := by
  unfold scheduleReminders
  rw [hex, hdates]
  simp [kindPart, h7c, h1c, h7, h1]

theorem subscribeToProgram_fresh {p : FundingProgram} {now t7 t1 : Int} {s : NotifStore}
    (hp : s.prefsDoc = none ∨ s.prefsDoc = some none)
    (hrem : getScheduledReminders s = [])
    (hdates : calculateReminderDates p.deadline = (some t7, some t1))
    (h7 : now < t7) (h1 : now < t1) :
    subscribeToProgram p now s =
      saveScheduledReminders
        [mkReminder p ReminderType.seven_days t7, mkReminder p ReminderType.one_day t1]
        (savePreferences
          { defaultPreferences with subscribedPrograms := [p.id] } s) := by
  have hgp : getPreferences s = defaultPreferences := by
    rcases hp with hp | hp <;> simp [getPreferences, hp]
  unfold subscribeToProgram
  rw [hgp]
  rw [if_neg (by simp [defaultPreferences])]
  have hfix : ({ defaultPreferences with
      subscribedPrograms := defaultPreferences.subscribedPrograms ++ [p.id] }
        : NotificationPreferences) =
      { defaultPreferences with subscribedPrograms := [p.id] } := by
    simp [defaultPreferences]
  rw [hfix]
  exact congrArg Prod.snd (scheduleReminders_fresh (s := savePreferences
      { defaultPreferences with subscribedPrograms := [p.id] } s)
      rfl rfl (by rw [getScheduledReminders_savePreferences]; exact hrem) hdates h7 h1)

/-- C10: a missing or unreadable preferences document yields the fixed default
value: empty email, master switch off, both reminder-kind toggles on, empty
subscription set; consequently subscribing on a fresh session schedules both
reminder kinds (when the computed instants are in the future) even though the
master switch is off, so checkDueReminders afterwards returns nothing. -/
theorem getPreferences_default_spec :
    (∀ rd, getPreferences { prefsDoc := none, remindersDoc := rd } = defaultPreferences) ∧
    (∀ rd, getPreferences { prefsDoc := some none, remindersDoc := rd } = defaultPreferences) ∧
    defaultPreferences.email = "" ∧
    defaultPreferences.enabled = false ∧
    defaultPreferences.reminders.sevenDays = true ∧
    defaultPreferences.reminders.oneDay = true ∧
    defaultPreferences.subscribedPrograms = [] ∧
    (∀ (p : FundingProgram) (now t7 t1 : Int) (s : NotifStore),
      s.prefsDoc = none ∨ s.prefsDoc = some none →
      getScheduledReminders s = [] →
      calculateReminderDates p.deadline = (some t7, some t1) →
      now < t7 → now < t1 →
      mkReminder p ReminderType.seven_days t7 ∈
        getScheduledReminders (subscribeToProgram p now s) ∧
      mkReminder p ReminderType.one_day t1 ∈
        getScheduledReminders (subscribeToProgram p now s) ∧
      (∀ now2 : Int, checkDueReminders now2 (subscribeToProgram p now s) =
        ([], subscribeToProgram p now s))) := by
  refine ⟨fun rd => rfl, fun rd => rfl, rfl, rfl, rfl, rfl, rfl, ?_⟩
  intro p now t7 t1 s hp hrem hdates h7 h1
  rw [subscribeToProgram_fresh hp hrem hdates h7 h1]
  rw [getScheduledReminders_saveReminders]
  refine ⟨by simp, by simp, ?_⟩
  intro now2
  apply checkDueReminders_disabled
  left
  rw [getPreferences_saveReminders, getPreferences_savePreferences]
  rfl

/-- A program whose deadline happens to be in the US month.day.year shape the
host Date parser accepts, used to witness the scheduling clauses. -/
def usDeadlineProgram : FundingProgram :=
  { id := "p2", title := "T2", provider := "P", budget := "5.000€",
    deadline := "03.31.2026", focus := "F", description := "D",
    requirements := "R", region := ["DE"] }

/-- C10 witness: on the empty store, subscribing to a host-parseable deadline
at instant 0 creates both reminder kinds, and a later check still returns
nothing because the default master switch is off. -/
theorem getPreferences_default_spec_witness :
    mkReminder usDeadlineProgram ReminderType.seven_days ((20543 - 7) * msPerDay) ∈
      getScheduledReminders (subscribeToProgram usDeadlineProgram 0 emptyStore) ∧
    mkReminder usDeadlineProgram ReminderType.one_day ((20543 - 1) * msPerDay) ∈
      getScheduledReminders (subscribeToProgram usDeadlineProgram 0 emptyStore) ∧
    checkDueReminders 1774915200000 (subscribeToProgram usDeadlineProgram 0 emptyStore) =
      ([], subscribeToProgram usDeadlineProgram 0 emptyStore) := by
  have h := getPreferences_default_spec.2.2.2.2.2.2.2 usDeadlineProgram 0
    ((20543 - 7) * msPerDay) ((20543 - 1) * msPerDay) emptyStore
    (Or.inl rfl) rfl (by decide) (by decide) (by decide)
  exact ⟨h.1, h.2.1, h.2.2 1774915200000⟩

/-! Claim C3. -/

theorem kindPart_cases (p : FundingProgram) (now : Int) (E : List ScheduledReminder)
    (toggle : Bool) (o : Option Int) (rt : ReminderType) :
    kindPart p now E toggle o rt = [] ∨
    ∃ t, kindPart p now E toggle o rt = [mkReminder p rt t] ∧
      E.find? (fun r => r.programId == p.id && r.reminderType == rt) = none := by
  rcases o with - | t
  · exact Or.inl rfl
  simp only [kindPart]
  by_cases hc : (toggle && decide (now < t) &&
      (E.find? (fun r => r.programId == p.id && r.reminderType == rt)).isNone) = true
  · rw [if_pos hc]
    refine Or.inr ⟨t, rfl, ?_⟩
    simp only [Bool.and_eq_true, Option.isNone_iff_eq_none] at hc
    exact hc.2
  · rw [if_neg hc]
    exact Or.inl rfl

theorem find?_none_key_not_mem {E : List ScheduledReminder} {pid : String} {rt : ReminderType}
    (h : E.find? (fun r => r.programId == pid && r.reminderType == rt) = none) :
    (pid, rt) ∉ E.map reminderKey := by
  rw [List.find?_eq_none] at h
  intro hmem
  obtain ⟨r, hr, hkey⟩ := List.mem_map.mp hmem
  unfold reminderKey at hkey
  rw [Prod.mk.injEq] at hkey
  exact h r hr (by simp [hkey.1, hkey.2])

theorem scheduleReminders_fst (p : FundingProgram) (now : Int) (s : NotifStore) :
    (scheduleReminders p now s).1 =
      kindPart p now (getScheduledReminders s) (getPreferences s).reminders.sevenDays
        (calculateReminderDates p.deadline).1 ReminderType.seven_days ++
      kindPart p now (getScheduledReminders s) (getPreferences s).reminders.oneDay
        (calculateReminderDates p.deadline).2 ReminderType.one_day := rfl

theorem scheduleReminders_snd (p : FundingProgram) (now : Int) (s : NotifStore) :
    (scheduleReminders p now s).2 =
      if (scheduleReminders p now s).1.isEmpty then s
      else saveScheduledReminders (getScheduledReminders s ++ (scheduleReminders p now s).1) s :=
  rfl

theorem scheduleReminders_new_keys (p : FundingProgram) (now : Int) (s : NotifStore) :
    ((scheduleReminders p now s).1.map reminderKey).Nodup ∧
    ∀ k ∈ (scheduleReminders p now s).1.map reminderKey,
      k ∉ (getScheduledReminders s).map reminderKey := by
  rw [scheduleReminders_fst]
  rcases kindPart_cases p now (getScheduledReminders s) (getPreferences s).reminders.sevenDays
      (calculateReminderDates p.deadline).1 ReminderType.seven_days with h7 | ⟨t7, h7, hf7⟩ <;>
    rcases kindPart_cases p now (getScheduledReminders s) (getPreferences s).reminders.oneDay
      (calculateReminderDates p.deadline).2 ReminderType.one_day with h1 | ⟨t1, h1, hf1⟩ <;>
    rw [h7, h1]
  · simp
  · simp only [List.nil_append, List.map_cons, List.map_nil, List.nodup_cons, List.not_mem_nil,
      not_false_eq_true, List.nodup_nil, and_self, true_and]
    intro k hk
    simp only [List.mem_singleton] at hk
    subst hk
    exact find?_none_key_not_mem hf1
  · simp only [List.append_nil, List.map_cons, List.map_nil, List.nodup_cons, List.not_mem_nil,
      not_false_eq_true, List.nodup_nil, and_self, true_and]
    intro k hk
    simp only [List.mem_singleton] at hk
    subst hk
    exact find?_none_key_not_mem hf7
  · constructor
    · simp [mkReminder, reminderKey]
    · intro k hk
      simp only [List.map_append, List.mem_append, List.map_cons, List.map_nil,
        List.mem_singleton] at hk
      rcases hk with hk | hk <;> subst hk
      · exact find?_none_key_not_mem hf7
      · exact find?_none_key_not_mem hf1

theorem runOp_preserves_keys (op : NotifOp) (s : NotifStore)
    (h : ((getScheduledReminders s).map reminderKey).Nodup) :
    ((getScheduledReminders (runOp op s)).map reminderKey).Nodup := by
  have hsched : ∀ (p : FundingProgram) (now : Int) (s : NotifStore),
      ((getScheduledReminders s).map reminderKey).Nodup →
      ((getScheduledReminders (scheduleReminders p now s).2).map reminderKey).Nodup := by
    intro p now s h
    rw [scheduleReminders_snd]
    by_cases he : (scheduleReminders p now s).1.isEmpty = true
    · rw [if_pos he]
      exact h
    · rw [if_neg he, getScheduledReminders_saveReminders, List.map_append, List.nodup_append]
      obtain ⟨hn, hdisj⟩ := scheduleReminders_new_keys p now s
      exact ⟨h, hn, fun a ha hb => hdisj a hb ha⟩
  cases op with
  | schedule p now => exact hsched p now s h
  | subscribe p now =>
    simp only [runOp]
    unfold subscribeToProgram
    by_cases hc : ((getPreferences s).subscribedPrograms.contains p.id) = true
    · rw [if_pos hc]
      exact h
    · rw [if_neg hc]
      exact hsched p now _ (by rw [getScheduledReminders_savePreferences]; exact h)
  | unsubscribe pid =>
    simp only [runOp]
    unfold unsubscribeFromProgram
    rw [getScheduledReminders_saveReminders, getScheduledReminders_savePreferences]
    exact ((List.filter_sublist _).map reminderKey).nodup h
  | check now =>
    simp only [runOp]
    unfold checkDueReminders
    by_cases hg : (!(getPreferences s).enabled || (getPreferences s).email == "") = true
    · rw [if_pos hg]
      exact h
    · rw [if_neg hg]
      simp only []
      by_cases hemp : ((getScheduledReminders s).filter
          (fun r => !r.sent && decide (r.scheduledDate ≤ now))).isEmpty = true
      · rw [if_pos hemp]
        exact h
      · rw [if_neg hemp]
        rw [getScheduledReminders_saveReminders, List.map_map]
        have : ((getScheduledReminders s).map (reminderKey ∘ fun r =>
            if (((getScheduledReminders s).filter
                (fun r => !r.sent && decide (r.scheduledDate ≤ now))).find? (fun dr =>
                dr.programId == r.programId && dr.reminderType == r.reminderType)).isSome then
              { r with sent := true }
            else r)) = (getScheduledReminders s).map reminderKey := by
          apply List.map_congr_left
          intro r hr
          simp only [Function.comp_apply]
          by_cases hf : (((getScheduledReminders s).filter
              (fun r => !r.sent && decide (r.scheduledDate ≤ now))).find? (fun dr =>
              dr.programId == r.programId && dr.reminderType == r.reminderType)).isSome = true
          · rw [if_pos hf]
            rfl
          · rw [if_neg hf]
        rw [this]
        exact h

theorem kindPart_again (p : FundingProgram) (now : Int) (E E2 : List ScheduledReminder)
    (toggle : Bool) (o : Option Int) (rt : ReminderType)
    (hsub : ∀ r ∈ E, r ∈ E2)
    (hadd : ∀ r ∈ kindPart p now E toggle o rt, r ∈ E2) :
    kindPart p now E2 toggle o rt = [] := by
  rcases o with - | t
  · rfl
  simp only [kindPart] at hadd ⊢
  by_cases htog : (toggle && decide (now < t)) = true
  · have hsome : (E2.find? (fun r => r.programId == p.id && r.reminderType == rt)).isSome
        = true := by
      rcases hfE : E.find? (fun r => r.programId == p.id && r.reminderType == rt) with - | r0
      · have hmk : mkReminder p rt t ∈ E2 := by
          apply hadd
          rw [hfE]
          simp [htog]
        exact List.find?_isSome.mpr ⟨mkReminder p rt t, hmk, by simp [mkReminder]⟩
      · refine List.find?_isSome.mpr ⟨r0, hsub r0 (List.mem_of_find?_eq_some hfE), ?_⟩
        exact List.find?_some (p := fun r : ScheduledReminder =>
          r.programId == p.id && r.reminderType == rt) hfE
    obtain ⟨x, hx⟩ := Option.isSome_iff_exists.mp hsome
    rw [if_neg]
    simp [hx]
  · rw [Bool.not_eq_true] at htog
    rw [if_neg]
    simp [htog]

theorem scheduleReminders_idem (p : FundingProgram) (now : Int) (s : NotifStore) :
    scheduleReminders p now (scheduleReminders p now s).2 =
      ([], (scheduleReminders p now s).2) := by
  have hprefs : getPreferences (scheduleReminders p now s).2 = getPreferences s := by
    rw [scheduleReminders_snd]
    by_cases he : (scheduleReminders p now s).1.isEmpty = true
    · rw [if_pos he]
    · rw [if_neg he, getPreferences_saveReminders]
  have hsub : ∀ r ∈ getScheduledReminders s,
      r ∈ getScheduledReminders (scheduleReminders p now s).2 := by
    intro r hr
    rw [scheduleReminders_snd]
    by_cases he : (scheduleReminders p now s).1.isEmpty = true
    · rw [if_pos he]
      exact hr
    · rw [if_neg he, getScheduledReminders_saveReminders]
      exact List.mem_append_left _ hr
  have hadd : ∀ r ∈ (scheduleReminders p now s).1,
      r ∈ getScheduledReminders (scheduleReminders p now s).2 := by
    intro r hr
    have hne : (scheduleReminders p now s).1.isEmpty = false := by
      rcases hl : (scheduleReminders p now s).1 with - | ⟨a, b⟩
      · rw [hl] at hr
        simp at hr
      · rfl
    rw [scheduleReminders_snd, hne]
    simp only [Bool.false_eq_true, if_false]
    rw [getScheduledReminders_saveReminders]
    exact List.mem_append_right _ hr
  have h7 : kindPart p now (getScheduledReminders (scheduleReminders p now s).2)
      (getPreferences s).reminders.sevenDays
      (calculateReminderDates p.deadline).1 ReminderType.seven_days = [] := by
    apply kindPart_again p now (getScheduledReminders s) _ _ _ _ hsub
    intro r hr
    apply hadd
    rw [scheduleReminders_fst]
    exact List.mem_append_left _ hr
  have h1 : kindPart p now (getScheduledReminders (scheduleReminders p now s).2)
      (getPreferences s).reminders.oneDay
      (calculateReminderDates p.deadline).2 ReminderType.one_day = [] := by
    apply kindPart_again p now (getScheduledReminders s) _ _ _ _ hsub
    intro r hr
    apply hadd
    rw [scheduleReminders_fst]
    exact List.mem_append_right _ hr
  have hfst : (scheduleReminders p now (scheduleReminders p now s).2).1 = [] := by
    rw [scheduleReminders_fst, hprefs, h7, h1]
    rfl
  have hsnd := scheduleReminders_snd p now (scheduleReminders p now s).2
  rw [hfst] at hsnd
  simp only [List.isEmpty_nil, if_true] at hsnd
  exact Prod.ext hfst hsnd

theorem runOps_preserves_keys (ops : List NotifOp) (s : NotifStore)
    (h : ((getScheduledReminders s).map reminderKey).Nodup) :
    ((getScheduledReminders (runOps ops s)).map reminderKey).Nodup := by
  induction ops generalizing s with
  | nil => exact h
  | cons op ops ih => exact ih (runOp op s) (runOp_preserves_keys op s h)

/-- C3: from an empty reminders store, every sequence of the four operations
keeps at most one persisted record per (program id, reminder kind) pair; and a
second scheduleReminders call with unchanged preferences and clock creates
nothing and leaves the store exactly as after the first call. -/
theorem reminder_store_invariant :
    (∀ (ops : List NotifOp) (s : NotifStore), getScheduledReminders s = [] →
      ((getScheduledReminders (runOps ops s)).map reminderKey).Nodup) ∧
    (∀ (p : FundingProgram) (now : Int) (s : NotifStore),
      scheduleReminders p now (scheduleReminders p now s).2 =
        ([], (scheduleReminders p now s).2)) := by
  refine ⟨?_, scheduleReminders_idem⟩
  intro ops s hs
  exact runOps_preserves_keys ops s (by rw [hs]; simp)

/-- C3 witness: a concrete call sequence from the empty store ends with
duplicate-free keys, and a repeated schedule call is a no-op on the store. -/
theorem reminder_store_invariant_witness :
    ((getScheduledReminders (runOps
        [NotifOp.subscribe usDeadlineProgram 0, NotifOp.schedule usDeadlineProgram 0,
         NotifOp.check 1774915200000, NotifOp.unsubscribe "p9"] emptyStore)).map
      reminderKey).Nodup ∧
    scheduleReminders usDeadlineProgram 0
        (scheduleReminders usDeadlineProgram 0 emptyStore).2 =
      ([], (scheduleReminders usDeadlineProgram 0 emptyStore).2) := by
  exact ⟨reminder_store_invariant.1
      [NotifOp.subscribe usDeadlineProgram 0, NotifOp.schedule usDeadlineProgram 0,
       NotifOp.check 1774915200000, NotifOp.unsubscribe "p9"] emptyStore rfl,
    reminder_store_invariant.2 usDeadlineProgram 0 emptyStore⟩

/-! Claim C7. -/

theorem matchScore_foldl_skip (M : List MatchResult) (pid : String) (acc : Option Int)
    (h : ∀ mr ∈ M, mr.programId ≠ pid) :
    M.foldl (fun acc m => if m.programId == pid then some m.score else acc) acc = acc := by
  induction M generalizing acc with
  | nil => rfl
  | cons x xs ih =>
    rw [List.foldl_cons]
    rw [if_neg (by simp [h x (List.mem_cons_self x xs)])]
    exact ih acc fun mr hmr => h mr (List.mem_cons_of_mem x hmr)

theorem matchScore_of_mem {M : List MatchResult} {m : MatchResult}
    (hnd : (M.map (fun mr => mr.programId)).Nodup) (hm : m ∈ M) :
    matchScore M m.programId = m.score := by
  unfold matchScore
  suffices hs : M.foldl
      (fun acc mr => if mr.programId == m.programId then some mr.score else acc) none =
      some m.score by rw [hs]
  induction M with
  | nil => simp at hm
  | cons x xs ih =>
    rw [List.map_cons, List.nodup_cons] at hnd
    rcases List.mem_cons.mp hm with rfl | hm2
    · rw [List.foldl_cons, if_pos (by simp)]
      exact matchScore_foldl_skip xs m.programId (some m.score)
        (fun mr hmr hEq => hnd.1 (hEq ▸ List.mem_map_of_mem (fun q => q.programId) hmr))
    · rw [List.foldl_cons, if_neg (by
        simp only [beq_iff_eq]
        intro hEq
        exact hnd.1 (hEq ▸ List.mem_map_of_mem (fun q => q.programId) hm2))]
      exact ih hnd.2 hm2

theorem find?_id_unique {A : List FundingProgram} (hnd : (A.map (fun q => q.id)).Nodup)
    {pid : String} {p : FundingProgram} :
    A.find? (fun q => q.id == pid) = some p ↔ p ∈ A ∧ p.id = pid := by
  constructor
  · intro h
    exact ⟨List.mem_of_find?_eq_some h, by simpa using List.find?_some h⟩
  · rintro ⟨hp, rfl⟩
    have hs : (A.find? (fun q => q.id == p.id)).isSome = true :=
      List.find?_isSome.mpr ⟨p, hp, by simp⟩
    obtain ⟨q, hq⟩ := Option.isSome_iff_exists.mp hs
    have hqid : q.id = p.id := by simpa using List.find?_some hq
    have hqp : q = p :=
      List.inj_on_of_nodup_map hnd (List.mem_of_find?_eq_some hq) hp hqid
    rw [hq, hqp]

theorem displayMap_eq_some {A : List FundingProgram} {M : List MatchResult}
    {m : MatchResult} {p : FundingProgram} :
    (match A.find? (fun q => q.id == m.programId) with
     | some q => if 20 ≤ matchScore M q.id then some q else none
     | none => none) = some p ↔
      A.find? (fun q => q.id == m.programId) = some p ∧ 20 ≤ matchScore M p.id := by
  split
  · next q heq =>
    rw [heq]
    by_cases hsc : 20 ≤ matchScore M q.id
    · rw [if_pos hsc]
      constructor
      · intro hqp
        injection hqp with hqp
        subst hqp
        exact ⟨rfl, hsc⟩
      · rintro ⟨hqp, -⟩
        exact hqp
    · rw [if_neg hsc]
      constructor
      · rintro ⟨⟩
      · rintro ⟨hqp, hscp⟩
        injection hqp with hqp
        exact absurd (hqp ▸ hscp) hsc
  · next heq =>
    rw [heq]
    simp

theorem defaultDisplay_mem {A : List FundingProgram} {M : List MatchResult}
    (hA : (A.map (fun q => q.id)).Nodup) (p : FundingProgram) :
    p ∈ defaultDisplay A M ↔
      p ∈ A ∧ (∃ m ∈ M, m.programId = p.id) ∧ 20 ≤ matchScore M p.id := by
  unfold defaultDisplay
  rw [List.mem_filterMap]
  constructor
  · rintro ⟨m, hm, hfm⟩
    rw [displayMap_eq_some] at hfm
    obtain ⟨hfind, hsc⟩ := hfm
    obtain ⟨hpA, hpid⟩ := (find?_id_unique hA).mp hfind
    exact ⟨hpA, ⟨m, (List.mem_mergeSort (l := M)).mp hm, hpid.symm⟩, hsc⟩
  · rintro ⟨hpA, ⟨m, hmM, hmid⟩, hsc⟩
    refine ⟨m, (List.mem_mergeSort (l := M)).mpr hmM, ?_⟩
    rw [displayMap_eq_some]
    exact ⟨(find?_id_unique hA).mpr ⟨hpA, hmid.symm⟩, hsc⟩

theorem defaultDisplay_sorted {A : List FundingProgram} {M : List MatchResult}
    (hA : (A.map (fun q => q.id)).Nodup) (hM : (M.map (fun mr => mr.programId)).Nodup) :
    (defaultDisplay A M).Pairwise
      (fun p q => matchScore M q.id ≤ matchScore M p.id) := by
  unfold defaultDisplay
  rw [List.pairwise_filterMap]
  have hsorted := @List.sorted_mergeSort MatchResult
    (fun a b : MatchResult => decide (b.score ≤ a.score))
    (fun a b c hab hbc => by
      simp only [decide_eq_true_eq] at hab hbc ⊢
      omega)
    (fun a b => by
      rcases Int.le_total a.score b.score with h | h <;> simp [h])
    M
  refine List.Pairwise.imp_of_mem ?_ hsorted
  intro a b ha hb hab
  intro x hx y hy
  rw [Option.mem_def, displayMap_eq_some] at hx hy
  have haM : a ∈ M := (List.mem_mergeSort (l := M)).mp ha
  have hbM : b ∈ M := (List.mem_mergeSort (l := M)).mp hb
  have hxid : x.id = a.programId := ((find?_id_unique hA).mp hx.1).2
  have hyid : y.id = b.programId := ((find?_id_unique hA).mp hy.1).2
  rw [hxid, hyid, matchScore_of_mem hM haM, matchScore_of_mem hM hbM]
  simpa using hab

/-- C7: the condition guarding programsToDisplay is true exactly when some
filter field differs from the documented default; when it holds the filtered
list is shown; when the filter state is absent or equal to the default the
view is the score-ranked default display, which holds exactly the programs
that have a match entry and score at least 20, ordered by descending match
score. -/
theorem programsToDisplay_spec :
    (∀ f : FilterState, hasActiveFilters f = true ↔ f ≠ defaultFilterState) ∧
    (∀ (A : List FundingProgram) (M : List MatchResult) (F : List FundingProgram)
        (f : FilterState), hasActiveFilters f = true →
      programsToDisplay A M F (some f) = F) ∧
    (∀ (A : List FundingProgram) (M : List MatchResult) (F : List FundingProgram)
        (af : Option FilterState), af = none ∨ af = some defaultFilterState →
      programsToDisplay A M F af = defaultDisplay A M) ∧
    (∀ (A : List FundingProgram) (M : List MatchResult),
      (A.map (fun q => q.id)).Nodup →
      (∀ p : FundingProgram, p ∈ defaultDisplay A M ↔
        p ∈ A ∧ (∃ m ∈ M, m.programId = p.id) ∧ 20 ≤ matchScore M p.id) ∧
      ((M.map (fun mr => mr.programId)).Nodup →
        (defaultDisplay A M).Pairwise
          (fun p q => matchScore M q.id ≤ matchScore M p.id))) := by
  refine ⟨?_, ?_, ?_, ?_⟩
  · intro f
    rcases f with ⟨q, rg, mn, mx, dl, sb⟩
    simp only [hasActiveFilters, defaultFilterState, ne_eq, FilterState.mk.injEq,
      Bool.or_eq_true, bne_iff_ne, Bool.not_eq_true', List.isEmpty_eq_false]
    tauto
  · intro A M F f hf
    simp only [programsToDisplay]
    rw [if_pos hf]
  · intro A M F af haf
    rcases haf with rfl | rfl
    · rfl
    · simp only [programsToDisplay]
      rw [if_neg (by decide)]
  · intro A M hA
    exact ⟨fun p => defaultDisplay_mem hA p, fun hM => defaultDisplay_sorted hA hM⟩

/-- A concrete match entry for the witness instances. -/
def wMatch : MatchResult := { programId := "p1", score := 80, reasoning := "fit" }

/-- A filter state differing from the default only in the query. -/
def wFilter : FilterState := { defaultFilterState with searchQuery := "MINT" }

/-- C7 witness: the clauses instantiated on a one-program, one-match view: an
active query shows the filtered list, a null filter state shows the default
display, and the default display holds exactly the scored program, sorted. -/
theorem programsToDisplay_spec_witness :
    (hasActiveFilters wFilter = true ↔ wFilter ≠ defaultFilterState) ∧
    programsToDisplay [germanDeadlineProgram] [wMatch] [] (some wFilter) = [] ∧
    programsToDisplay [germanDeadlineProgram] [wMatch] [] none =
      defaultDisplay [germanDeadlineProgram] [wMatch] ∧
    (germanDeadlineProgram ∈ defaultDisplay [germanDeadlineProgram] [wMatch] ↔
      germanDeadlineProgram ∈ [germanDeadlineProgram] ∧
        (∃ m ∈ [wMatch], m.programId = germanDeadlineProgram.id) ∧
        20 ≤ matchScore [wMatch] germanDeadlineProgram.id) ∧
    (defaultDisplay [germanDeadlineProgram] [wMatch]).Pairwise
      (fun p q => matchScore [wMatch] q.id ≤ matchScore [wMatch] p.id) := by
  refine ⟨programsToDisplay_spec.1 wFilter, ?_, ?_, ?_, ?_⟩
  · exact programsToDisplay_spec.2.1 [germanDeadlineProgram] [wMatch] [] wFilter (by decide)
  · exact programsToDisplay_spec.2.2.1 [germanDeadlineProgram] [wMatch] [] none (Or.inl rfl)
  · exact (programsToDisplay_spec.2.2.2 [germanDeadlineProgram] [wMatch] (by decide)).1
      germanDeadlineProgram
  · exact (programsToDisplay_spec.2.2.2 [germanDeadlineProgram] [wMatch] (by decide)).2
      (by decide)
